import Mathlib

/-!
Shallow embedding of the retention / pruning / transfer logic of the
`ftp-backup` program (`lib/ftp_backup/by_ftp_app.py`,
`lib/ftp_backup/sftp_handler.py`, `lib/ftp_backup/ftp_handler.py`,
`lib/ftp_backup/ftp_dir.py`), together with theorems settling the
specification claims about it.

Strings are modelled as Lean `String` (lists of characters); Python's
`datetime` validity and weekday computations are embedded with the
proleptic-Gregorian formulas CPython uses.
-/

namespace FtpBackup

/-! ## Characters and small string helpers -/

/-- Python's `\s` character test (ASCII whitespace, as produced by `re` on the
directory names handled here). -/
def isPySpace (c : Char) : Bool :=
  c = ' ' || c = '\t' || c = '\n' || c = '\x0d' || c = '\x0b' || c = '\x0c'

/-- Python's `\d` on the ASCII digits. -/
def isDigitChar (c : Char) : Bool :=
  '0' ≤ c && c ≤ '9'

/-- The separator character set `[-_]` of the backup-directory patterns. -/
def isSepChar (c : Char) : Bool :=
  c = '-' || c = '_'

/-- Value of `int(...)` applied to a non-empty ASCII digit group. -/
def digitsVal (l : List Char) : Nat :=
  l.foldl (fun a c => a * 10 + (c.toNat - 48)) 0

/-! ## Calendar arithmetic (embedding CPython `datetime`) -/

/-- Gregorian leap-year rule used by `datetime`. -/
def isLeapYear (y : Nat) : Bool :=
  y % 4 = 0 && (y % 100 ≠ 0 || y % 400 = 0)

/-- Days in a month of a given year, `0` for an out-of-range month. -/
def daysInMonth (y m : Nat) : Nat :=
  match m with
  | 1 => 31
  | 2 => if isLeapYear y then 29 else 28
  | 3 => 31
  | 4 => 30
  | 5 => 31
  | 6 => 30
  | 7 => 31
  | 8 => 31
  | 9 => 30
  | 10 => 31
  | 11 => 30
  | 12 => 31
  | _ => 0

/-- The triple `(y, m, d)` is accepted by the `datetime(year, month, day)`
constructor (which raises `ValueError` outside these bounds). -/
def ValidDate (y m d : Nat) : Prop :=
  1 ≤ y ∧ y ≤ 9999 ∧ 1 ≤ m ∧ m ≤ 12 ∧ 1 ≤ d ∧ d ≤ daysInMonth y m

instance (y m d : Nat) : Decidable (ValidDate y m d) := by
  unfold ValidDate
  infer_instance

/-- Days before January 1st of year `y` in the proleptic Gregorian calendar
(as in CPython's `datetime` ordinal computation). -/
def daysBeforeYear (y : Nat) : Nat :=
  365 * (y - 1) + (y - 1) / 4 - (y - 1) / 100 + (y - 1) / 400

/-- Days in year `y` before the first day of month `m`. -/
def daysBeforeMonth (y m : Nat) : Nat :=
  (List.range (m - 1)).foldl (fun a i => a + daysInMonth y (i + 1)) 0

/-- Proleptic-Gregorian ordinal of a date, with January 1 of year 1 at `1`. -/
def dateOrdinal (y m d : Nat) : Nat :=
  daysBeforeYear y + daysBeforeMonth y m + d

/-- `timetuple().tm_wday` of a date: Monday = 0 … Sunday = 6. -/
def weekdayOf (y m d : Nat) : Nat :=
  (dateOrdinal y m d + 6) % 7

/-- A current UTC calendar date as used by `datetime.utcnow()`. -/
structure Date where
  year : Nat
  month : Nat
  day : Nat
deriving DecidableEq

/-! ## Parsing backup-directory names -/

/-- Embedding of the regular expression
`^\s*(\d+)[_\-](\d+)[_\-](\d+)` of `map_dirs2types` /
`_map_dirs2types`: optional leading whitespace, three non-empty digit
groups joined by single `-` or `_` separators; returns the `int(...)`
values of the three groups.  (Digits and separators are disjoint
character sets, so greedy matching without backtracking is exact.) -/
def parse_backup_date (s : String) : Option (Nat × Nat × Nat) :=
  let cs := s.data.dropWhile isPySpace
  let ys := cs.takeWhile isDigitChar
  match ys, cs.dropWhile isDigitChar with
  | _ :: _, c1 :: r1 =>
    if isSepChar c1 then
      let ms := r1.takeWhile isDigitChar
      match ms, r1.dropWhile isDigitChar with
      | _ :: _, c2 :: r2 =>
        if isSepChar c2 then
          let ds := r2.takeWhile isDigitChar
          match ds with
          | [] => none
          | _ :: _ => some (digitsVal ys, digitsVal ms, digitsVal ds)
        else none
      | _, _ => none
    else none
  | _, _ => none

/-- Helper for the strict candidate filter: consume one or more `[-_]`
separator characters. -/
def chompSeps (l : List Char) : Option (List Char) :=
  match l with
  | c :: r => if isSepChar c then some (r.dropWhile isSepChar) else none
  | [] => none

/-- Embedding of the candidate filter
`^\s*\d{4}[-_]+\d\d[-_]+\d\d[-_]+\d+\s*$` (`re_backup_dirs`) applied to
remote entry names before the pruning pass. -/
def is_backup_dir_name (s : String) : Bool :=
  match s.data.dropWhile isPySpace with
  | a :: b :: c :: d :: r0 =>
    isDigitChar a && isDigitChar b && isDigitChar c && isDigitChar d &&
    (match chompSeps r0 with
     | some r1 =>
       match r1 with
       | e :: f :: r2 =>
         isDigitChar e && isDigitChar f &&
         (match chompSeps r2 with
          | some r3 =>
            match r3 with
            | g :: h :: r4 =>
              isDigitChar g && isDigitChar h &&
              (match chompSeps r4 with
               | some r5 =>
                 (match r5.takeWhile isDigitChar with
                  | [] => false
                  | _ :: _ => (r5.dropWhile isDigitChar).all isPySpace)
               | none => false)
            | _ => false
          | none => false)
       | _ => false
     | none => false)
  | _ => false

/-! ## Decimal formatting (embedding `%d`-style rendering) -/

/-- The character of a single decimal digit. -/
def digitChar (d : Nat) : Char :=
  match d with
  | 0 => '0'
  | 1 => '1'
  | 2 => '2'
  | 3 => '3'
  | 4 => '4'
  | 5 => '5'
  | 6 => '6'
  | 7 => '7'
  | 8 => '8'
  | _ => '9'

/-- Little-endian decimal digits of `n`, with explicit fuel (`fuel ≥ n`
suffices). -/
def natDigitsRev : Nat → Nat → List Nat
  | 0, _ => []
  | fuel + 1, n => if n = 0 then [] else n % 10 :: natDigitsRev fuel (n / 10)

/-- Decimal rendering of a natural number, as Python `'%d' % n`. -/
def natRepr (n : Nat) : String :=
  if n = 0 then "0" else ((natDigitsRev n n).reverse.map digitChar).asString

/-- Python `'%02d' % n`: zero-pad to width 2. -/
def fmt02 (n : Nat) : String :=
  if n < 10 then "0" ++ natRepr n else natRepr n

/-- Python `'%04d'`-style rendering used by `strftime('%Y')`. -/
def fmt04 (n : Nat) : String :=
  if n < 10 then "000" ++ natRepr n
  else if n < 100 then "00" ++ natRepr n
  else if n < 1000 then "0" ++ natRepr n
  else natRepr n

/-- The `strftime('%Y-%m-%d_%%02d')` template of the new-backup-directory
computation, already applied up to the counter. -/
def backup_dir_template (d : Date) : String :=
  fmt04 d.year ++ "-" ++ fmt02 d.month ++ "-" ++ fmt02 d.day ++ "_"

/-- The candidate name `backup_dir_tpl % i`. -/
def mkBackupDirName (d : Date) (i : Nat) : String :=
  backup_dir_template d ++ fmt02 i

/-- Numeric value of a decimal digit character, by case split (used to read
back what `digitChar` wrote). -/
def digitVal (c : Char) : Nat :=
  if c = '0' then 0
  else if c = '1' then 1
  else if c = '2' then 2
  else if c = '3' then 3
  else if c = '4' then 4
  else if c = '5' then 5
  else if c = '6' then 6
  else if c = '7' then 7
  else if c = '8' then 8
  else 9

/-- Decode a digit string back to its value (left inverse of the decimal
formatting; leading zeros are harmless). -/
def decDigits (l : List Char) : Nat :=
  l.foldl (fun a c => a * 10 + digitVal c) 0

/-! ## Case-insensitive lexicographic ordering (`sort(key=str.lower)`) -/

/-- ASCII lower-casing of one character, as `str.lower` acts on the ASCII
names handled here. -/
def pyLowerChar (c : Char) : Char :=
  if 'A' ≤ c ∧ c ≤ 'Z' then Char.ofNat (c.toNat + 32) else c

/-- Strict lexicographic comparison of character lists by code point. -/
def lexLt : List Char → List Char → Bool
  | [], [] => false
  | [], _ :: _ => true
  | _ :: _, [] => false
  | a :: as, b :: bs =>
    if a.toNat < b.toNat then true
    else if b.toNat < a.toNat then false
    else lexLt as bs

/-- Python's `s.lower() < t.lower()` comparison used as the sort key. -/
def strLowerLt (a b : String) : Bool :=
  lexLt (a.data.map pyLowerChar) (b.data.map pyLowerChar)

/-- The reflexive companion `s.lower() <= t.lower()` (total preorder). -/
def StrLowerLe (a b : String) : Prop :=
  strLowerLt b a = false

instance (a b : String) : Decidable (StrLowerLe a b) := by
  unfold StrLowerLe
  infer_instance

/-- Stable insertion of `x` into an already-sorted list: `x` goes in front of
the first element `y` that is not strictly below it. -/
def insSorted (lt : α → α → Bool) (x : α) : List α → List α
  | [] => [x]
  | y :: ys => if lt y x then y :: insSorted lt x ys else x :: y :: ys

/-- Stable sort (right-fold insertion sort), equal as a function to Python's
stable `list.sort` with the same key. -/
def sortBy (lt : α → α → Bool) (l : List α) : List α :=
  l.foldr (insSorted lt) []

/-- `names.sort(key=str.lower)`. -/
def sortLower (l : List String) : List String :=
  sortBy strLowerLt l

/-! ## Classification into retention buckets (`map_dirs2types`) -/

/-- The five in-memory collections `type_mapping` of the pruning pass. -/
structure TypeMapping where
  yearly : List String
  monthly : List String
  weekly : List String
  daily : List String
  other : List String
deriving DecidableEq

/-- The freshly initialised `type_mapping` dictionary. -/
def emptyMapping : TypeMapping :=
  ⟨[], [], [], [], []⟩

/-- The guarded append `if not name in coll: coll.append(name)`. -/
def appendUniq (l : List String) (s : String) : List String :=
  if s ∈ l then l else l ++ [s]

/-- One iteration of the `for backup_dir in backup_dirs` loop of
`map_dirs2types` / `_map_dirs2types`: parse the leading date, divert to
`other` on parse failure or `datetime` `ValueError`, otherwise append to
`yearly` (Jan 1), `monthly` (day 1), `weekly` (Sunday) and always `daily`. -/
def classify_dir (tm : TypeMapping) (name : String) : TypeMapping :=
  match parse_backup_date name with
  | none => { tm with other := appendUniq tm.other name }
  | some (y, m, d) =>
    if ValidDate y m d then
      let tm1 := if m = 1 ∧ d = 1 then { tm with yearly := appendUniq tm.yearly name } else tm
      let tm2 := if d = 1 then { tm1 with monthly := appendUniq tm1.monthly name } else tm1
      let tm3 :=
        if weekdayOf y m d = 6 then { tm2 with weekly := appendUniq tm2.weekly name } else tm2
      { tm3 with daily := appendUniq tm3.daily name }
    else { tm with other := appendUniq tm.other name }

/-- `map_dirs2types(type_mapping, backup_dirs)` (`by_ftp_app.py`) and
`_map_dirs2types` (`sftp_handler.py`): classify every name in order. -/
def map_dirs2types (tm : TypeMapping) (dirs : List String) : TypeMapping :=
  dirs.foldl classify_dir tm

/-- Per-name characterisation extracted for the statements: parse result of a
name when it is a valid dated name. -/
def parsedValidDate (s : String) : Option (Nat × Nat × Nat) :=
  match parse_backup_date s with
  | some (y, m, d) => if ValidDate y m d then some (y, m, d) else none
  | none => none

/-- The name belongs in the `other` bucket: unparseable or invalid date. -/
def isOtherName (s : String) : Bool :=
  (parsedValidDate s).isNone

/-- The name is classified `yearly`: parsed month and day are both 1. -/
def isYearlyName (s : String) : Bool :=
  match parsedValidDate s with
  | some (_, m, d) => m == 1 && d == 1
  | none => false

/-- The name is classified `monthly`: parsed day is 1. -/
def isMonthlyName (s : String) : Bool :=
  match parsedValidDate s with
  | some (_, _, d) => d == 1
  | none => false

/-- The name is classified `weekly`: its date falls on a Sunday. -/
def isWeeklyName (s : String) : Bool :=
  match parsedValidDate s with
  | some (y, m, d) => weekdayOf y m d == 6
  | none => false

/-! ## Quota enforcement and the delete set -/

/-- The per-class retention quotas `self.copies`. -/
structure Copies where
  yearly : Nat
  monthly : Nat
  weekly : Nat
  daily : Nat
deriving DecidableEq

/-- The default quotas (2 copies of each class). -/
def defaultCopies : Copies :=
  ⟨2, 2, 2, 2⟩

/-- The eviction loop `while cur_copies > max_copies: type_mapping[key].pop(0)`
applied to one class collection. -/
def evictLoop (maxCopies : Nat) : List String → List String
  | [] => []
  | x :: xs => if xs.length + 1 > maxCopies then evictLoop maxCopies xs else x :: xs

/-- The `for key in type_mapping: type_mapping[key].sort(key=str.lower)`
pass over all five collections. -/
def sortMapping (tm : TypeMapping) : TypeMapping :=
  { yearly := sortLower tm.yearly
    monthly := sortLower tm.monthly
    weekly := sortLower tm.weekly
    daily := sortLower tm.daily
    other := sortLower tm.other }

/-- The `for key in self.copies` eviction pass: only the four quota-bearing
collections shrink; `other` has no quota. -/
def enforce_quotas (c : Copies) (tm : TypeMapping) : TypeMapping :=
  { tm with
    yearly := evictLoop c.yearly tm.yearly
    monthly := evictLoop c.monthly tm.monthly
    weekly := evictLoop c.weekly tm.weekly
    daily := evictLoop c.daily tm.daily }

/-- The keep test of the delete loop: the inner `for key in type_mapping`
iterates over all five collections, `other` included. -/
def KeptDir (tm : TypeMapping) (s : String) : Prop :=
  s ∈ tm.yearly ∨ s ∈ tm.monthly ∨ s ∈ tm.weekly ∨ s ∈ tm.daily ∨ s ∈ tm.other

instance (tm : TypeMapping) (s : String) : Decidable (KeptDir tm s) := by
  unfold KeptDir
  infer_instance

/-- The `dirs_delete` accumulation over `cur_backup_dirs`. -/
def dirs_delete (tm : TypeMapping) (cands : List String) : List String :=
  cands.filter (fun d => decide (¬ KeptDir tm d))

/-! ## New-backup-directory search (`_get_new_backup_dir`) -/

/-- The `while not found` search loop: starting at counter `i`, return the
first counter whose formatted name is absent from `exist`. The fuel only
bounds the recursion; `exist.length + 1` steps always suffice. -/
def searchLoop (exist : List String) (mk : Nat → String) : Nat → Nat → Option Nat
  | 0, _ => none
  | fuel + 1, i => if mk i ∈ exist then searchLoop exist mk fuel (i + 1) else some i

/-- Counter selected by the search loop of `_get_new_backup_dir` /
the inline loop of `BackupByFtpApp._run`. -/
def get_new_backup_dir_idx (exist : List String) (d : Date) : Nat :=
  (searchLoop exist (mkBackupDirName d) (exist.length + 1) 0).getD 0

/-- The new backup directory name for today. -/
def get_new_backup_dir (exist : List String) (d : Date) : String :=
  mkBackupDirName d (get_new_backup_dir_idx exist d)

/-! ## The pruning pass (`cleanup_old_backupdirs` / `BackupByFtpApp._run`) -/

/-- Seeding of `type_mapping` with the synthesized today name before
classification: `yearly` on Jan 1, `monthly` on day 1, `weekly` on Sunday,
always `daily` (tested against `cur_date`, not against the name). -/
def initMapping (today : Date) (newDir : String) : TypeMapping :=
  let tm := emptyMapping
  let tm1 :=
    if today.month = 1 ∧ today.day = 1 then
      { tm with yearly := appendUniq tm.yearly newDir }
    else tm
  let tm2 :=
    if today.day = 1 then { tm1 with monthly := appendUniq tm1.monthly newDir } else tm1
  let tm3 :=
    if weekdayOf today.year today.month today.day = 6 then
      { tm2 with weekly := appendUniq tm2.weekly newDir }
    else tm2
  { tm3 with daily := appendUniq tm3.daily newDir }

/-- Outcome of one pruning pass. -/
structure CleanupResult where
  candidates : List String
  newDir : String
  mapping : TypeMapping
  deleteSet : List String
deriving DecidableEq

/-- The pruning pass over the names of the remote listing: filter the
dated candidates, sort them case-insensitively, synthesize today's new
directory name and append it, classify, sort each bucket, evict down to the
quotas, and collect every candidate kept by no collection. -/
def cleanup_old_backupdirs (listing : List String) (today : Date) (c : Copies) :
    CleanupResult :=
  let cur0 := sortLower (listing.filter is_backup_dir_name)
  let newDir := get_new_backup_dir cur0 today
  let cands := cur0 ++ [newDir]
  let tm := enforce_quotas c (sortMapping (map_dirs2types (initMapping today newDir) cands))
  { candidates := cands
    newDir := newDir
    mapping := tm
    deleteSet := dirs_delete tm cands }

/-! ## Upload retry loop (`FTPHandler.put_file`) -/

/-- Observable outcome of the `while try_nr < self.max_stor_attempts` retry
loop, with the number of `storbinary` calls made. `returnedWithoutUpload`
is the loop falling through its guard with no successful transfer and no
exception. -/
inductive PutResult where
  | ok (calls : Nat)
  | raisedTemp (calls : Nat)
  | returnedWithoutUpload (calls : Nat)
deriving DecidableEq

/-- The retry loop of `put_file`, with `storFails t` telling whether the
`t`-th `storbinary` call raises `ftplib.error_temp`. The fuel argument only
drives the recursion; `put_file` passes `maxAtt`, which always covers the
loop guard `tryNr < maxAtt`. The give-up test `if try_nr >= 10` is the
literal hard-coded constant of the source. -/
def put_file_loop (maxAtt : Nat) (storFails : Nat → Bool) : Nat → Nat → PutResult
  | 0, tryNr => .returnedWithoutUpload tryNr
  | fuel + 1, tryNr =>
    if tryNr < maxAtt then
      if storFails (tryNr + 1) then
        if tryNr + 1 ≥ 10 then .raisedTemp (tryNr + 1)
        else put_file_loop maxAtt storFails fuel (tryNr + 1)
      else .ok (tryNr + 1)
    else .returnedWithoutUpload tryNr

/-- `FTPHandler.put_file` on a regular local file while logged in and not
simulating, reduced to its transfer-retry behaviour. -/
def put_file (maxAtt : Nat) (storFails : Nat → Bool) : PutResult :=
  put_file_loop maxAtt storFails maxAtt 0

/-! ## Permission values (`ftp_dir.EntryPermissions`) -/

/-- Permission constants of `ftp_dir.py` (note the non-standard layout). -/
def STAT_RUSR : Nat := 0o1

def STAT_WUSR : Nat := 0o2

def STAT_XUSR : Nat := 0o4

def STAT_RGRP : Nat := 0o10

def STAT_WGRP : Nat := 0o20

def STAT_XGRP : Nat := 0o40

def STAT_ROTH : Nat := 0o100

def STAT_WOTH : Nat := 0o200

def STAT_XOTH : Nat := 0o400

def STAT_ISDIR : Nat := 0o1000

/-- One position of the symbolic pattern `([-d])([-r])…` under
`re.IGNORECASE`: `-`, the base letter, or its upper-case form. -/
def permCharOk (c : Char) (base upper : Char) : Bool :=
  c = '-' || c = base || c = upper

/-- Match of `EntryPermissions.re_from_str`
(`^\s*([-d])([-r])([-w])([-x])([-r])([-w])([-x])([-r])([-w])([-x])\s*$`,
case-insensitive), returning the ten matched characters. -/
def parse_symbolic (s : String) : Option (List Char) :=
  match s.data.dropWhile isPySpace with
  | c0 :: c1 :: c2 :: c3 :: c4 :: c5 :: c6 :: c7 :: c8 :: c9 :: rest =>
    if rest.all isPySpace &&
        permCharOk c0 'd' 'D' && permCharOk c1 'r' 'R' && permCharOk c2 'w' 'W' &&
        permCharOk c3 'x' 'X' && permCharOk c4 'r' 'R' && permCharOk c5 'w' 'W' &&
        permCharOk c6 'x' 'X' && permCharOk c7 'r' 'R' && permCharOk c8 'w' 'W' &&
        permCharOk c9 'x' 'X' then
      some [c0, c1, c2, c3, c4, c5, c6, c7, c8, c9]
    else none
  | _ => none

/-- Match of `re_dec` (`^\s*(\d+)\s*$`) with the `int(...)` value. -/
def parse_dec (s : String) : Option Nat :=
  let cs := s.data.dropWhile isPySpace
  match cs.takeWhile isDigitChar with
  | [] => none
  | ds => if (cs.dropWhile isDigitChar).all isPySpace then some (digitsVal ds) else none

/-- An octal digit. -/
def isOctChar (c : Char) : Bool :=
  '0' ≤ c && c ≤ '7'

/-- Value of `int(group, 8)`. -/
def octVal (l : List Char) : Nat :=
  l.foldl (fun a c => a * 8 + (c.toNat - 48)) 0

/-- Match of `re_oct` (`^\s*0?o([0-7]+)\s*$`, case-insensitive). -/
def parse_oct (s : String) : Option Nat :=
  let step : List Char → Option Nat := fun r =>
    match r.takeWhile isOctChar with
    | [] => none
    | ds => if (r.dropWhile isOctChar).all isPySpace then some (octVal ds) else none
  match s.data.dropWhile isPySpace with
  | '0' :: c :: r => if c = 'o' || c = 'O' then step r else none
  | c :: r => if c = 'o' || c = 'O' then step r else none
  | [] => none

/-- A hexadecimal digit of the pattern `[0-9a-f]` under `re.IGNORECASE`. -/
def isHexChar (c : Char) : Bool :=
  isDigitChar c || ('a' ≤ c && c ≤ 'f') || ('A' ≤ c && c ≤ 'F')

/-- Value of `int(group, 16)`. -/
def hexVal (l : List Char) : Nat :=
  l.foldl
    (fun a c =>
      a * 16 + (if isDigitChar c then c.toNat - 48
                else if ('a' ≤ c && c ≤ 'f') then c.toNat - 87 else c.toNat - 55))
    0

/-- Match of `re_hex` (`^\s*0?x([0-9a-f]+)\s*$`, case-insensitive). -/
def parse_hex (s : String) : Option Nat :=
  let step : List Char → Option Nat := fun r =>
    match r.takeWhile isHexChar with
    | [] => none
    | ds => if (r.dropWhile isHexChar).all isPySpace then some (hexVal ds) else none
  match s.data.dropWhile isPySpace with
  | '0' :: c :: r => if c = 'x' || c = 'X' then step r else none
  | c :: r => if c = 'x' || c = 'X' then step r else none
  | [] => none

/-- `EntryPermissions.to_int`: `none` models the trailing `raise ValueError`.
In the symbolic branch every test of the source evaluates the expression
`perm | STAT_XXXX` without assigning it (`|` instead of `|=`), so `perm`
is still `0` when returned. -/
def to_int (s : String) : Option Nat :=
  match parse_symbolic s with
  | some _ => some 0
  | none =>
    match parse_dec s with
    | some v => some v
    | none =>
      match parse_oct s with
      | some v => some v
      | none => parse_hex s

/-- The evidently intended symbolic accumulation of `to_int` (each test
or-ing its constant into `perm` with an augmented assignment), kept for
comparison with the claimed round-trip. -/
def to_int_intended (s : String) : Option Nat :=
  match parse_symbolic s with
  | some [c0, c1, c2, c3, c4, c5, c6, c7, c8, c9] =>
    some
      ((if c0 ≠ '-' then STAT_ISDIR else 0) |||
        (if c1 ≠ '-' then STAT_RUSR else 0) |||
        (if c2 ≠ '-' then STAT_WUSR else 0) |||
        (if c3 ≠ '-' then STAT_XUSR else 0) |||
        (if c4 ≠ '-' then STAT_RGRP else 0) |||
        (if c5 ≠ '-' then STAT_WGRP else 0) |||
        (if c6 ≠ '-' then STAT_XGRP else 0) |||
        (if c7 ≠ '-' then STAT_ROTH else 0) |||
        (if c8 ≠ '-' then STAT_WOTH else 0) |||
        (if c9 ≠ '-' then STAT_XOTH else 0))
  | _ =>
    match parse_dec s with
    | some v => some v
    | none =>
      match parse_oct s with
      | some v => some v
      | none => parse_hex s

/-- The argument shapes accepted by `EntryPermissions._set_permission`. -/
inductive PermInput where
  | intVal (n : Int)
  | strVal (s : String)
  | otherVal
deriving DecidableEq

/-- `EntryPermissions._set_permission`: negative integers and unrecognized
values raise `ValueError` (modelled as `none`); every stored value passes
through the final `self._permission &= 0o1777`. -/
def set_permission : PermInput → Option Nat
  | .intVal n => if n < 0 then none else some (n.toNat &&& 0o1777)
  | .strVal s =>
    match to_int s with
    | some v => some (v &&& 0o1777)
    | none => none
  | .otherVal => none

/-- `EntryPermissions.__str__`: the ten-character symbolic rendering. -/
def perm_str (p : Nat) : String :=
  [(if p &&& STAT_ISDIR ≠ 0 then 'd' else '-'),
    (if p &&& STAT_RUSR ≠ 0 then 'r' else '-'),
    (if p &&& STAT_WUSR ≠ 0 then 'w' else '-'),
    (if p &&& STAT_XUSR ≠ 0 then 'x' else '-'),
    (if p &&& STAT_RGRP ≠ 0 then 'r' else '-'),
    (if p &&& STAT_WGRP ≠ 0 then 'w' else '-'),
    (if p &&& STAT_XGRP ≠ 0 then 'x' else '-'),
    (if p &&& STAT_ROTH ≠ 0 then 'r' else '-'),
    (if p &&& STAT_WOTH ≠ 0 then 'w' else '-'),
    (if p &&& STAT_XOTH ≠ 0 then 'x' else '-')].asString

/-- Little-endian octal digits with fuel, for `%04o`. -/
def natOctRev : Nat → Nat → List Nat
  | 0, _ => []
  | fuel + 1, n => if n = 0 then [] else n % 8 :: natOctRev fuel (n / 8)

/-- `EntryPermissions.oct`: `"0o%04o" % permission`. -/
def perm_oct (p : Nat) : String :=
  let ds := (natOctRev p p).reverse.map digitChar
  let pad := List.replicate (4 - ds.length) '0'
  "0o" ++ (pad ++ ds).asString

/-! ## `mkdir` operations -/

/-- Observable outcome of one `mkdir` call. `nameError` is Python raising
`NameError` because the executed line references an undefined variable. -/
inductive MkdirResult where
  | stateError
  | nameError
  | noMutatingCall
  | mkdirCall (path : String)
deriving DecidableEq

/-- `FTPHandler.mkdir(directory)`: raises the handler state error when not
logged in; under simulate it only logs; otherwise it executes
`self.ftp.mkd(new_backup_dir)`, whose argument `new_backup_dir` is an
undefined name at that point, so the call raises `NameError` before any
remote `MKD` is issued. -/
def ftp_mkdir (loggedIn simulate : Bool) (_directory : String) : MkdirResult :=
  if ¬ loggedIn then .stateError
  else if simulate then .noMutatingCall
  else .nameError

/-- `SFTPHandler.mkdir(path)`: when not connected the raise statement
formats the undefined name `rpath`, so Python raises `NameError` instead of
the intended `SFTPHandlerError`; when connected it always issues
`self.sftp_client.mkdir(path, mode)` — the method never consults
`self.simulate`. -/
def sftp_mkdir (connected _simulate : Bool) (path : String) : MkdirResult :=
  if ¬ connected then .nameError
  else .mkdirCall path

/-! ## Remote trees and recursive removal -/

/-- A remote file-system node as observable through listings and stat. -/
inductive FsNode where
  | fileNode (name : String)
  | dirNode (name : String) (children : List FsNode)

/-- Listing name of a node. -/
def nodeName : FsNode → String
  | .fileNode n => n
  | .dirNode n _ => n

/-- Remote calls of interest issued by the applications. -/
inductive AppOp where
  | opCwd (p : String)
  | opCwdUp
  | opList
  | opDelete (p : String)
  | opRmd (p : String)
  | opMkd (p : String)
  | opStor (p : String)
deriving DecidableEq

/-- The mutating remote calls (`delete`, `rmd`/`rmdir`, `mkd`/`mkdir`,
`STOR`). -/
def isMutatingOp : AppOp → Bool
  | .opDelete _ => true
  | .opRmd _ => true
  | .opMkd _ => true
  | .opStor _ => true
  | _ => false

mutual

/-- `BackupByFtpApp.remove_recursive` on one node of the current remote
directory. A file makes the initial `cwd` fail with `ftplib.error_perm`,
so the handler deletes it as a plain file (simulate-guarded). A directory
is entered, listed, its children are processed in order (file children are
deleted directly by the inner loop, directory children recursively), then
the walk changes back up and removes the now-empty directory
(simulate-guarded). -/
def app_remove_node (simulate : Bool) : FsNode → List AppOp
  | .fileNode n => if simulate then [] else [.opDelete n]
  | .dirNode n cs =>
    .opCwd n :: .opList ::
      (app_remove_children simulate cs ++
        [.opCwdUp] ++ (if simulate then [] else [.opRmd n]))

/-- The `for entry in dlist` loop inside `remove_recursive`. -/
def app_remove_children (simulate : Bool) : List FsNode → List AppOp
  | [] => []
  | .fileNode f :: cs =>
    (if simulate then [] else [.opDelete f]) ++ app_remove_children simulate cs
  | .dirNode n cs' :: cs =>
    app_remove_node simulate (.dirNode n cs') ++ app_remove_children simulate cs

end

/-- `BackupByFtpApp.remove_recursive(item)` resolved against the entries of
the current remote directory: a missing item makes `cwd` raise
`error_perm`, and the handler then attempts the plain-file delete. -/
def app_remove_item (simulate : Bool) (entries : List FsNode) (item : String) : List AppOp :=
  match entries.find? (fun e => nodeName e == item) with
  | some e => app_remove_node simulate e
  | none => if simulate then [] else [.opDelete item]

mutual

/-- `SFTPHandler.remove_recursive` on one node: the type is taken from
`stat` (`is_dir`), directories are listed and all children recursed into,
then `rmdir` (simulate-guarded); files are `remove`d (simulate-guarded). -/
def sftp_remove_node (simulate : Bool) : FsNode → List AppOp
  | .fileNode n => if simulate then [] else [.opDelete n]
  | .dirNode n cs =>
    .opList :: (sftp_remove_children simulate cs ++ (if simulate then [] else [.opRmd n]))

/-- The `for entry in dlist` loop inside `SFTPHandler.remove_recursive`. -/
def sftp_remove_children (simulate : Bool) : List FsNode → List AppOp
  | [] => []
  | c :: cs => sftp_remove_node simulate c ++ sftp_remove_children simulate cs

end

/-- `FTPHandler.remove(recursive=True, item)` for a single item against the
current directory entries, returning the issued calls and the names
actually removed. The inner recursion `self.remove(entry.name,
recursive=True)` raises `TypeError` (the string binds to the `recursive`
parameter and the keyword repeats it), caught by the blanket `except
Exception` handler, which abandons the item. A file child is passed as
`self.remove(entry.name)`, binding the name to `recursive` with no items —
a logged no-op. A failing `cwd` raises `FTPCwdError` (the wrapper in
`FTPHandler.cwd`), which the `except ftplib.error_perm` fallback does not
catch. `rmd` on the still non-empty directory is refused by the server
(`error_perm`) and the fallback `self.remove(item)` is again a no-op. -/
def ftp_handler_remove_rec (entries : List FsNode) (item : String) :
    List AppOp × List String :=
  match entries.find? (fun e => nodeName e == item) with
  | some (.dirNode _ cs) =>
    match cs with
    | [] => ([.opCwd item, .opList, .opCwdUp, .opRmd item], [item])
    | _ :: _ =>
      if cs.any (fun e => match e with | .dirNode _ _ => true | _ => false) then
        ([.opCwd item, .opList], [])
      else
        ([.opCwd item, .opList, .opCwdUp, .opRmd item], [])
  | _ => ([], [])

/-! ## The full FTP-application run (`BackupByFtpApp._run`) -/

/-- A direct child of the local backup directory as seen by
`glob.glob(local_pattern)` plus the `os.path.isfile` test. -/
structure LocalEntry where
  name : String
  isRegularFile : Bool
deriving DecidableEq

/-- `re_whitespace.sub('_', name)`: collapse every whitespace run to one
underscore. -/
def collapseWsAux (prevSpace : Bool) : List Char → List Char
  | [] => []
  | c :: cs =>
    if isPySpace c then
      if prevSpace then collapseWsAux true cs else '_' :: collapseWsAux true cs
    else c :: collapseWsAux false cs

/-- The sanitized remote file name of an upload. -/
def sanitize_remote_name (s : String) : String :=
  (collapseWsAux false s.data).asString

/-- Comparison of local entries under `sorted(..., key=str.lower)`. -/
def localEntryLt (a b : LocalEntry) : Bool :=
  strLowerLt a.name b.name

/-- Computed outputs and issued remote calls of one `_run`. -/
structure RunOutput where
  deleteSet : List String
  uploads : List String
  newDir : String
  ops : List AppOp
deriving DecidableEq

/-- `BackupByFtpApp._run` after login and `cwd` to the remote root:
compute the delete set from the listing names, remove each delete
candidate recursively, create and enter the new directory
(simulate-guarded), upload every regular local file in case-insensitive
sorted order (`STOR` simulate-guarded, shown here with transfers
succeeding), and change back up (simulate-guarded `finally`). The
computed delete set and upload list do not depend on the simulate flag. -/
def backup_run (simulate : Bool) (remote : List FsNode) (localFiles : List LocalEntry)
    (today : Date) (c : Copies) : RunOutput :=
  let cr := cleanup_old_backupdirs (remote.map nodeName) today c
  let removeOps := (cr.deleteSet.map (app_remove_item simulate remote)).flatten
  let uploads :=
    ((sortBy localEntryLt localFiles).filter (fun e => e.isRegularFile)).map (fun e => e.name)
  let ops :=
    removeOps ++
      (if simulate then [] else [AppOp.opMkd cr.newDir]) ++
      (if simulate then [] else [AppOp.opCwd cr.newDir]) ++
      (if simulate then [] else uploads.map (fun n => AppOp.opStor (sanitize_remote_name n))) ++
      (if simulate then [] else [AppOp.opCwdUp])
  { deleteSet := cr.deleteSet
    uploads := uploads
    newDir := cr.newDir
    ops := ops }

/-! ## Basic membership lemmas -/

theorem mem_appendUniq {l : List String} {s x : String} :
    x ∈ appendUniq l s ↔ x ∈ l ∨ x = s := by
  unfold appendUniq
  split
  · rename_i hs
    constructor
    · exact fun h => Or.inl h
    · rintro (h | rfl)
      · exact h
      · exact hs
  · simp

theorem mem_insSorted {lt : α → α → Bool} {a x : α} :
    ∀ l : List α, x ∈ insSorted lt a l ↔ x = a ∨ x ∈ l
  | [] => by simp [insSorted]
  | y :: ys => by
    unfold insSorted
    split
    · simp only [List.mem_cons, mem_insSorted ys]
      tauto
    · simp only [List.mem_cons]

theorem mem_sortBy {lt : α → α → Bool} {x : α} :
    ∀ l : List α, x ∈ sortBy lt l ↔ x ∈ l
  | [] => by simp [sortBy]
  | y :: ys => by
    show x ∈ insSorted lt y (sortBy lt ys) ↔ _
    rw [mem_insSorted, mem_sortBy ys]
    simp

theorem mem_sortLower {l : List String} {x : String} :
    x ∈ sortLower l ↔ x ∈ l :=
  mem_sortBy l

/-! ## Classification membership characterisation -/

theorem classify_dir_other {tm : TypeMapping} {n x : String} :
    x ∈ (classify_dir tm n).other ↔ x ∈ tm.other ∨ (x = n ∧ isOtherName n = true) := by
  unfold classify_dir isOtherName parsedValidDate
  cases hp : parse_backup_date n with
  | none => simp [mem_appendUniq, and_comm]
  | some t =>
    obtain ⟨y, m, d⟩ := t
    by_cases hv : ValidDate y m d
    · simp only [hv, if_pos]
      split_ifs <;> simp [hv]
    · simp [hv, mem_appendUniq, and_comm]

theorem classify_dir_yearly {tm : TypeMapping} {n x : String} :
    x ∈ (classify_dir tm n).yearly ↔ x ∈ tm.yearly ∨ (x = n ∧ isYearlyName n = true) := by
  unfold classify_dir isYearlyName parsedValidDate
  cases hp : parse_backup_date n with
  | none => simp
  | some t =>
    obtain ⟨y, m, d⟩ := t
    by_cases hv : ValidDate y m d
    · simp only [hv, if_pos]
      by_cases h1 : m = 1 ∧ d = 1
      · split_ifs <;>
          simp_all [mem_appendUniq, Nat.beq_eq, h1.1, h1.2, and_comm]
      · have : ¬ (m == 1 && d == 1) = true := by
          simpa [Nat.beq_eq, -Bool.and_eq_true] using fun hm hd => h1 ⟨hm, hd⟩
        split_ifs <;> simp_all
    · simp [hv]

theorem classify_dir_monthly {tm : TypeMapping} {n x : String} :
    x ∈ (classify_dir tm n).monthly ↔ x ∈ tm.monthly ∨ (x = n ∧ isMonthlyName n = true) := by
  unfold classify_dir isMonthlyName parsedValidDate
  cases hp : parse_backup_date n with
  | none => simp
  | some t =>
    obtain ⟨y, m, d⟩ := t
    by_cases hv : ValidDate y m d
    · simp only [hv, if_pos]
      by_cases hd : d = 1
      · split_ifs <;> simp_all [mem_appendUniq, and_comm]
      · split_ifs <;> simp_all
    · simp [hv]

theorem classify_dir_weekly {tm : TypeMapping} {n x : String} :
    x ∈ (classify_dir tm n).weekly ↔ x ∈ tm.weekly ∨ (x = n ∧ isWeeklyName n = true) := by
  unfold classify_dir isWeeklyName parsedValidDate
  cases hp : parse_backup_date n with
  | none => simp
  | some t =>
    obtain ⟨y, m, d⟩ := t
    by_cases hv : ValidDate y m d
    · simp only [hv, if_pos]
      by_cases hw : weekdayOf y m d = 6
      · split_ifs <;> simp_all [mem_appendUniq, and_comm]
      · split_ifs <;> simp_all
    · simp [hv]

theorem classify_dir_daily {tm : TypeMapping} {n x : String} :
    x ∈ (classify_dir tm n).daily ↔ x ∈ tm.daily ∨ (x = n ∧ isOtherName n = false) := by
  unfold classify_dir isOtherName parsedValidDate
  cases hp : parse_backup_date n with
  | none => simp
  | some t =>
    obtain ⟨y, m, d⟩ := t
    by_cases hv : ValidDate y m d
    · simp only [hv, if_pos]
      split_ifs <;> simp_all [mem_appendUniq, and_comm]
    · simp [hv]

theorem map_dirs2types_other {x : String} :
    ∀ (dirs : List String) (tm : TypeMapping),
      x ∈ (map_dirs2types tm dirs).other ↔
        x ∈ tm.other ∨ (x ∈ dirs ∧ isOtherName x = true)
  | [], _ => by simp [map_dirs2types]
  | n :: dirs, tm => by
    show x ∈ (map_dirs2types (classify_dir tm n) dirs).other ↔ _
    rw [map_dirs2types_other dirs (classify_dir tm n), classify_dir_other]
    constructor
    · rintro ((h | ⟨rfl, ho⟩) | ⟨hd, ho⟩)
      · exact Or.inl h
      · exact Or.inr ⟨List.mem_cons_self _ _, ho⟩
      · exact Or.inr ⟨List.mem_cons_of_mem _ hd, ho⟩
    · rintro (h | ⟨hd, ho⟩)
      · exact Or.inl (Or.inl h)
      · rcases List.mem_cons.mp hd with rfl | hd
        · exact Or.inl (Or.inr ⟨rfl, ho⟩)
        · exact Or.inr ⟨hd, ho⟩

theorem map_dirs2types_yearly {x : String} :
    ∀ (dirs : List String) (tm : TypeMapping),
      x ∈ (map_dirs2types tm dirs).yearly ↔
        x ∈ tm.yearly ∨ (x ∈ dirs ∧ isYearlyName x = true)
  | [], _ => by simp [map_dirs2types]
  | n :: dirs, tm => by
    show x ∈ (map_dirs2types (classify_dir tm n) dirs).yearly ↔ _
    rw [map_dirs2types_yearly dirs (classify_dir tm n), classify_dir_yearly]
    constructor
    · rintro ((h | ⟨rfl, ho⟩) | ⟨hd, ho⟩)
      · exact Or.inl h
      · exact Or.inr ⟨List.mem_cons_self _ _, ho⟩
      · exact Or.inr ⟨List.mem_cons_of_mem _ hd, ho⟩
    · rintro (h | ⟨hd, ho⟩)
      · exact Or.inl (Or.inl h)
      · rcases List.mem_cons.mp hd with rfl | hd
        · exact Or.inl (Or.inr ⟨rfl, ho⟩)
        · exact Or.inr ⟨hd, ho⟩

theorem map_dirs2types_monthly {x : String} :
    ∀ (dirs : List String) (tm : TypeMapping),
      x ∈ (map_dirs2types tm dirs).monthly ↔
        x ∈ tm.monthly ∨ (x ∈ dirs ∧ isMonthlyName x = true)
  | [], _ => by simp [map_dirs2types]
  | n :: dirs, tm => by
    show x ∈ (map_dirs2types (classify_dir tm n) dirs).monthly ↔ _
    rw [map_dirs2types_monthly dirs (classify_dir tm n), classify_dir_monthly]
    constructor
    · rintro ((h | ⟨rfl, ho⟩) | ⟨hd, ho⟩)
      · exact Or.inl h
      · exact Or.inr ⟨List.mem_cons_self _ _, ho⟩
      · exact Or.inr ⟨List.mem_cons_of_mem _ hd, ho⟩
    · rintro (h | ⟨hd, ho⟩)
      · exact Or.inl (Or.inl h)
      · rcases List.mem_cons.mp hd with rfl | hd
        · exact Or.inl (Or.inr ⟨rfl, ho⟩)
        · exact Or.inr ⟨hd, ho⟩

theorem map_dirs2types_weekly {x : String} :
    ∀ (dirs : List String) (tm : TypeMapping),
      x ∈ (map_dirs2types tm dirs).weekly ↔
        x ∈ tm.weekly ∨ (x ∈ dirs ∧ isWeeklyName x = true)
  | [], _ => by simp [map_dirs2types]
  | n :: dirs, tm => by
    show x ∈ (map_dirs2types (classify_dir tm n) dirs).weekly ↔ _
    rw [map_dirs2types_weekly dirs (classify_dir tm n), classify_dir_weekly]
    constructor
    · rintro ((h | ⟨rfl, ho⟩) | ⟨hd, ho⟩)
      · exact Or.inl h
      · exact Or.inr ⟨List.mem_cons_self _ _, ho⟩
      · exact Or.inr ⟨List.mem_cons_of_mem _ hd, ho⟩
    · rintro (h | ⟨hd, ho⟩)
      · exact Or.inl (Or.inl h)
      · rcases List.mem_cons.mp hd with rfl | hd
        · exact Or.inl (Or.inr ⟨rfl, ho⟩)
        · exact Or.inr ⟨hd, ho⟩

theorem map_dirs2types_daily {x : String} :
    ∀ (dirs : List String) (tm : TypeMapping),
      x ∈ (map_dirs2types tm dirs).daily ↔
        x ∈ tm.daily ∨ (x ∈ dirs ∧ isOtherName x = false)
  | [], _ => by simp [map_dirs2types]
  | n :: dirs, tm => by
    show x ∈ (map_dirs2types (classify_dir tm n) dirs).daily ↔ _
    rw [map_dirs2types_daily dirs (classify_dir tm n), classify_dir_daily]
    constructor
    · rintro ((h | ⟨rfl, ho⟩) | ⟨hd, ho⟩)
      · exact Or.inl h
      · exact Or.inr ⟨List.mem_cons_self _ _, ho⟩
      · exact Or.inr ⟨List.mem_cons_of_mem _ hd, ho⟩
    · rintro (h | ⟨hd, ho⟩)
      · exact Or.inl (Or.inl h)
      · rcases List.mem_cons.mp hd with rfl | hd
        · exact Or.inl (Or.inr ⟨rfl, ho⟩)
        · exact Or.inr ⟨hd, ho⟩

/-! ## Quota eviction -/

theorem evictLoop_eq_drop (maxCopies : Nat) :
    ∀ l : List String, evictLoop maxCopies l = l.drop (l.length - maxCopies)
  | [] => by simp [evictLoop]
  | x :: xs => by
    unfold evictLoop
    split
    · rename_i hgt
      rw [evictLoop_eq_drop maxCopies xs]
      have : (x :: xs).length - maxCopies = (xs.length - maxCopies) + 1 := by
        simp only [List.length_cons]
        omega
      rw [this, List.drop_succ_cons]
    · rename_i hle
      have : (x :: xs).length - maxCopies = 0 := by
        simp only [List.length_cons]
        omega
      rw [this, List.drop_zero]

/-! ## Decimal round-trip and injectivity of the generated names -/

theorem natDigitsRev_foldr :
    ∀ fuel n : Nat, n ≤ fuel →
      List.foldr (fun d a => a * 10 + d) 0 (natDigitsRev fuel n) = n
  | 0, n, h => by
    have : n = 0 := Nat.le_zero.mp h
    simp [natDigitsRev, this]
  | fuel + 1, n, h => by
    unfold natDigitsRev
    split
    · rename_i h0
      simp [h0]
    · rename_i h0
      have hdiv : n / 10 ≤ fuel := by omega
      simp only [List.foldr_cons]
      rw [natDigitsRev_foldr fuel (n / 10) hdiv]
      omega

theorem natDigitsRev_lt :
    ∀ fuel n d : Nat, d ∈ natDigitsRev fuel n → d < 10
  | 0, _, _, h => by simp [natDigitsRev] at h
  | fuel + 1, n, d, h => by
    unfold natDigitsRev at h
    split at h
    · simp at h
    · rcases List.mem_cons.mp h with rfl | h
      · omega
      · exact natDigitsRev_lt fuel (n / 10) d h

theorem digitVal_digitChar {d : Nat} (h : d < 10) : digitVal (digitChar d) = d := by
  interval_cases d <;> rfl

theorem foldr_digitVal_digitChar :
    ∀ l : List Nat, (∀ d ∈ l, d < 10) →
      List.foldr (fun d a => a * 10 + digitVal (digitChar d)) 0 l =
        List.foldr (fun d a => a * 10 + d) 0 l
  | [], _ => rfl
  | d :: ds, h => by
    simp only [List.foldr_cons]
    rw [foldr_digitVal_digitChar ds (fun e he => h e (List.mem_cons_of_mem _ he)),
      digitVal_digitChar (h d (List.mem_cons_self _ _))]

theorem decDigits_natRepr (n : Nat) : decDigits (natRepr n).data = n := by
  unfold natRepr
  split
  · rename_i h0
    subst h0
    rfl
  · show decDigits ((natDigitsRev n n).reverse.map digitChar) = n
    unfold decDigits
    rw [List.foldl_map, List.foldl_reverse]
    rw [foldr_digitVal_digitChar (natDigitsRev n n) (fun d hd => natDigitsRev_lt n n d hd)]
    exact natDigitsRev_foldr n n (Nat.le_refl n)

theorem decDigits_cons_zero (l : List Char) : decDigits ('0' :: l) = decDigits l := rfl

theorem decDigits_fmt02 (n : Nat) : decDigits (fmt02 n).data = n := by
  unfold fmt02
  split
  · have hdata : ("0" ++ natRepr n).data = '0' :: (natRepr n).data := by
      rw [String.data_append]
      rfl
    rw [hdata, decDigits_cons_zero, decDigits_natRepr]
  · exact decDigits_natRepr n

theorem mkBackupDirName_injective (d : Date) : Function.Injective (mkBackupDirName d) := by
  intro i j h
  have hd : (mkBackupDirName d i).data = (mkBackupDirName d j).data := congrArg String.data h
  unfold mkBackupDirName at hd
  rw [String.data_append, String.data_append] at hd
  have hf : (fmt02 i).data = (fmt02 j).data := List.append_cancel_left hd
  calc i = decDigits (fmt02 i).data := (decDigits_fmt02 i).symm
    _ = decDigits (fmt02 j).data := by rw [hf]
    _ = j := decDigits_fmt02 j

theorem exists_free_idx (exist : List String) (d : Date) :
    ∃ k, k ≤ exist.length ∧ mkBackupDirName d k ∉ exist := by
  by_contra hall
  push_neg at hall
  have hsub :
      (Finset.range (exist.length + 1)).image (mkBackupDirName d) ⊆ exist.toFinset := by
    intro b hb
    rcases Finset.mem_image.mp hb with ⟨a, ha, rfl⟩
    exact List.mem_toFinset.mpr (hall a (Nat.lt_succ_iff.mp (Finset.mem_range.mp ha)))
  have hcard := Finset.card_le_card hsub
  rw [Finset.card_image_of_injective _ (mkBackupDirName_injective d),
    Finset.card_range] at hcard
  have := List.toFinset_card_le exist
  omega

theorem searchLoop_spec (exist : List String) (mk : Nat → String) :
    ∀ fuel i : Nat, (∃ k, k < fuel ∧ mk (i + k) ∉ exist) →
      ∃ j, searchLoop exist mk fuel i = some j ∧ mk j ∉ exist ∧ i ≤ j ∧
        ∀ l, i ≤ l → l < j → mk l ∈ exist
  | 0, i, h => by
    obtain ⟨k, hk, _⟩ := h
    omega
  | fuel + 1, i, h => by
    unfold searchLoop
    split
    · rename_i hmem
      obtain ⟨k, hk, hfree⟩ := h
      have hkpos : k ≠ 0 := by
        rintro rfl
        exact hfree (by simpa using hmem)
      obtain ⟨k', rfl⟩ := Nat.exists_eq_succ_of_ne_zero hkpos
      have hrec : ∃ k, k < fuel ∧ mk (i + 1 + k) ∉ exist :=
        ⟨k', by omega, by
          have : i + 1 + k' = i + (k' + 1) := by omega
          rw [this]
          exact hfree⟩
      obtain ⟨j, hj, hfree', hle, hmin⟩ := searchLoop_spec exist mk fuel (i + 1) hrec
      refine ⟨j, hj, hfree', by omega, ?_⟩
      intro l hl hlj
      rcases Nat.eq_or_lt_of_le hl with rfl | hl'
      · exact hmem
      · exact hmin l (by omega) hlj
    · rename_i hmem
      exact ⟨i, rfl, hmem, Nat.le_refl i, fun l hl hlj => by omega⟩

/-! ## Simulate mode issues no mutating calls during removal -/

mutual

theorem app_remove_node_sim_pure :
    ∀ t : FsNode, (app_remove_node true t).filter isMutatingOp = []
  | .fileNode n => by simp [app_remove_node]
  | .dirNode n cs => by
    have hcs := app_remove_children_sim_pure cs
    simp [app_remove_node, List.filter_append, isMutatingOp, hcs]

theorem app_remove_children_sim_pure :
    ∀ l : List FsNode, (app_remove_children true l).filter isMutatingOp = []
  | [] => by simp [app_remove_children]
  | .fileNode f :: cs => by
    have hcs := app_remove_children_sim_pure cs
    simp [app_remove_children, hcs]
  | .dirNode n cs' :: cs => by
    have h1 := app_remove_node_sim_pure (.dirNode n cs')
    have h2 := app_remove_children_sim_pure cs
    simp [app_remove_children, List.filter_append, h1, h2]

end

theorem app_remove_item_sim_pure (entries : List FsNode) (item : String) :
    (app_remove_item true entries item).filter isMutatingOp = [] := by
  unfold app_remove_item
  cases h : entries.find? (fun e => nodeName e == item) with
  | none => simp
  | some e => exact app_remove_node_sim_pure e

mutual

theorem sftp_remove_node_sim_pure :
    ∀ t : FsNode, (sftp_remove_node true t).filter isMutatingOp = []
  | .fileNode n => by simp [sftp_remove_node]
  | .dirNode n cs => by
    have hcs := sftp_remove_children_sim_pure cs
    simp [sftp_remove_node, List.filter_append, isMutatingOp, hcs]

theorem sftp_remove_children_sim_pure :
    ∀ l : List FsNode, (sftp_remove_children true l).filter isMutatingOp = []
  | [] => by simp [sftp_remove_children]
  | c :: cs => by
    have h1 := sftp_remove_node_sim_pure c
    have h2 := sftp_remove_children_sim_pure cs
    simp [sftp_remove_children, List.filter_append, h1, h2]

end

theorem remove_items_sim_pure (remote : List FsNode) :
    ∀ items : List String,
      ((items.map (app_remove_item true remote)).flatten).filter isMutatingOp = []
  | [] => by simp
  | item :: items => by
    simp only [List.map_cons, List.flatten_cons, List.filter_append,
      app_remove_item_sim_pure, remove_items_sim_pure remote items, List.append_nil]

/-! ## Small facts about the pipeline record fields -/

theorem initMapping_other (today : Date) (nd : String) :
    (initMapping today nd).other = [] := by
  unfold initMapping
  split_ifs <;> rfl

theorem enforce_quotas_other (c : Copies) (tm : TypeMapping) :
    (enforce_quotas c tm).other = tm.other := rfl

theorem sortMapping_other (tm : TypeMapping) :
    (sortMapping tm).other = sortLower tm.other := rfl

theorem isYearlyName_not_other {x : String} (h : isYearlyName x = true) :
    isOtherName x = false := by
  unfold isYearlyName at h
  unfold isOtherName
  cases hp : parsedValidDate x <;> simp_all

theorem isMonthlyName_not_other {x : String} (h : isMonthlyName x = true) :
    isOtherName x = false := by
  unfold isMonthlyName at h
  unfold isOtherName
  cases hp : parsedValidDate x <;> simp_all

theorem isWeeklyName_not_other {x : String} (h : isWeeklyName x = true) :
    isOtherName x = false := by
  unfold isWeeklyName at h
  unfold isOtherName
  cases hp : parsedValidDate x <;> simp_all

/-! ## Claim theorems -/

/-- C1, counterexample: with remote listing `["2024-13-40_00"]` on
2024-03-02 under the default quotas, the name `2024-13-40_00` is a
candidate (it matches the strict backup-name pattern), it is classified
only as `other` (its calendar date is invalid), yet it is NOT in the
computed delete set — the keep loop ranges over all five collections,
`other` included, so `other` names are kept, contradicting the claim that
they are always deleted. -/
theorem claim_c1_counterexample :
    "2024-13-40_00" ∈
        (cleanup_old_backupdirs ["2024-13-40_00"] ⟨2024, 3, 2⟩ defaultCopies).candidates ∧
    isOtherName "2024-13-40_00" = true ∧
    "2024-13-40_00" ∈
        (cleanup_old_backupdirs ["2024-13-40_00"] ⟨2024, 3, 2⟩ defaultCopies).mapping.other ∧
    "2024-13-40_00" ∉
        (cleanup_old_backupdirs ["2024-13-40_00"] ⟨2024, 3, 2⟩ defaultCopies).mapping.yearly ∧
    "2024-13-40_00" ∉
        (cleanup_old_backupdirs ["2024-13-40_00"] ⟨2024, 3, 2⟩ defaultCopies).mapping.monthly ∧
    "2024-13-40_00" ∉
        (cleanup_old_backupdirs ["2024-13-40_00"] ⟨2024, 3, 2⟩ defaultCopies).mapping.weekly ∧
    "2024-13-40_00" ∉
        (cleanup_old_backupdirs ["2024-13-40_00"] ⟨2024, 3, 2⟩ defaultCopies).mapping.daily ∧
    "2024-13-40_00" ∉
        (cleanup_old_backupdirs ["2024-13-40_00"] ⟨2024, 3, 2⟩ defaultCopies).deleteSet := by
  decide

/-- C1 (amended): the pruning pass computes the delete set as exactly the
candidate set minus the union of ALL FIVE class collections — the four
quota-bearing ones as they stand after quota eviction together with
`other`, which bears no quota and is never evicted; consequently a
candidate classified as `other` is always kept, never deleted. -/
theorem claim_c1_delete_set (listing : List String) (today : Date) (c : Copies)
    (x : String) :
    (x ∈ (cleanup_old_backupdirs listing today c).deleteSet ↔
      x ∈ (cleanup_old_backupdirs listing today c).candidates ∧
        ¬ KeptDir (cleanup_old_backupdirs listing today c).mapping x) ∧
    (x ∈ (cleanup_old_backupdirs listing today c).mapping.other ↔
      x ∈ (cleanup_old_backupdirs listing today c).candidates ∧ isOtherName x = true) := by
  constructor
  · show x ∈ dirs_delete _ _ ↔ _
    unfold dirs_delete
    rw [List.mem_filter]
    simp only [decide_eq_true_eq]
    exact Iff.rfl
  · show x ∈ sortLower (map_dirs2types (initMapping today _) _).other ↔ _
    rw [mem_sortLower, map_dirs2types_other, initMapping_other]
    constructor
    · rintro (h | h)
      · exact absurd h (List.not_mem_nil x)
      · exact h
    · exact fun h => Or.inr h

/-- C2: for every finite existing-name list and every current date, the
new-directory search loop terminates within `length + 1` probes and
returns the template name of the SMALLEST counter `i` whose zero-padded
name is not yet present; in particular with existing names
`2024-03-01_00`, `2024-03-01_01` on 2024-03-01 it returns
`2024-03-01_02`. -/
theorem claim_c2_next_name :
    (∀ (exist : List String) (d : Date),
      ∃ i, searchLoop exist (mkBackupDirName d) (exist.length + 1) 0 = some i ∧
        mkBackupDirName d i ∉ exist ∧
        (∀ j, j < i → mkBackupDirName d j ∈ exist) ∧
        get_new_backup_dir exist d = mkBackupDirName d i) ∧
    get_new_backup_dir ["2024-03-01_00", "2024-03-01_01"] ⟨2024, 3, 1⟩ = "2024-03-01_02" := by
  constructor
  · intro exist d
    obtain ⟨k, hk, hfree⟩ := exists_free_idx exist d
    have hex : ∃ k', k' < exist.length + 1 ∧ mkBackupDirName d (0 + k') ∉ exist :=
      ⟨k, by omega, by simpa using hfree⟩
    obtain ⟨j, hj, hfree', -, hmin⟩ :=
      searchLoop_spec exist (mkBackupDirName d) (exist.length + 1) 0 hex
    refine ⟨j, hj, hfree', fun l hl => hmin l (Nat.zero_le l) hl, ?_⟩
    unfold get_new_backup_dir get_new_backup_dir_idx
    rw [hj]
    rfl
  · decide

/-- C3: classification puts a name in `other` iff its leading date prefix
is unparseable or not a valid calendar date (and then in no dated class);
otherwise it goes to `yearly` iff month = 1 and day = 1, to `monthly` iff
day = 1, to `weekly` iff the date is a Sunday, and always to `daily`; a
name is never in both `other` and a dated class. The example
`2024-01-01_00` (a Monday) lands in `yearly`, `monthly` and `daily` but
not in `weekly`. -/
theorem claim_c3_classification (dirs : List String) (x : String) :
    (x ∈ (map_dirs2types emptyMapping dirs).other ↔ x ∈ dirs ∧ isOtherName x = true) ∧
    (x ∈ (map_dirs2types emptyMapping dirs).yearly ↔ x ∈ dirs ∧ isYearlyName x = true) ∧
    (x ∈ (map_dirs2types emptyMapping dirs).monthly ↔ x ∈ dirs ∧ isMonthlyName x = true) ∧
    (x ∈ (map_dirs2types emptyMapping dirs).weekly ↔ x ∈ dirs ∧ isWeeklyName x = true) ∧
    (x ∈ (map_dirs2types emptyMapping dirs).daily ↔ x ∈ dirs ∧ isOtherName x = false) ∧
    ¬ (x ∈ (map_dirs2types emptyMapping dirs).other ∧
        (x ∈ (map_dirs2types emptyMapping dirs).yearly ∨
          x ∈ (map_dirs2types emptyMapping dirs).monthly ∨
          x ∈ (map_dirs2types emptyMapping dirs).weekly ∨
          x ∈ (map_dirs2types emptyMapping dirs).daily)) ∧
    ("2024-01-01_00" ∈ (map_dirs2types emptyMapping ["2024-01-01_00"]).yearly ∧
      "2024-01-01_00" ∈ (map_dirs2types emptyMapping ["2024-01-01_00"]).monthly ∧
      "2024-01-01_00" ∈ (map_dirs2types emptyMapping ["2024-01-01_00"]).daily ∧
      "2024-01-01_00" ∉ (map_dirs2types emptyMapping ["2024-01-01_00"]).weekly ∧
      "2024-01-01_00" ∉ (map_dirs2types emptyMapping ["2024-01-01_00"]).other) := by
  have ho : x ∈ (map_dirs2types emptyMapping dirs).other ↔ x ∈ dirs ∧ isOtherName x = true := by
    rw [map_dirs2types_other]
    simp [emptyMapping]
  have hy : x ∈ (map_dirs2types emptyMapping dirs).yearly ↔
      x ∈ dirs ∧ isYearlyName x = true := by
    rw [map_dirs2types_yearly]
    simp [emptyMapping]
  have hm : x ∈ (map_dirs2types emptyMapping dirs).monthly ↔
      x ∈ dirs ∧ isMonthlyName x = true := by
    rw [map_dirs2types_monthly]
    simp [emptyMapping]
  have hw : x ∈ (map_dirs2types emptyMapping dirs).weekly ↔
      x ∈ dirs ∧ isWeeklyName x = true := by
    rw [map_dirs2types_weekly]
    simp [emptyMapping]
  have hd : x ∈ (map_dirs2types emptyMapping dirs).daily ↔
      x ∈ dirs ∧ isOtherName x = false := by
    rw [map_dirs2types_daily]
    simp [emptyMapping]
  refine ⟨ho, hy, hm, hw, hd, ?_, by decide⟩
  rintro ⟨hxo, hdated⟩
  have hot : isOtherName x = true := (ho.mp hxo).2
  rcases hdated with h | h | h | h
  · rw [isYearlyName_not_other (hy.mp h).2] at hot
    cases hot
  · rw [isMonthlyName_not_other (hm.mp h).2] at hot
    cases hot
  · rw [isWeeklyName_not_other (hw.mp h).2] at hot
    cases hot
  · rw [(hd.mp h).2] at hot
    cases hot

/-- C4: on a class collection sorted case-insensitively, the quota loop
(`while count > quota: pop(0)`) leaves exactly the suffix of length
`quota` — the lexicographically-largest members — and every evicted member
is below every survivor in the case-insensitive order. -/
theorem claim_c4_quota_eviction (q : Nat) (l : List String)
    (hs : List.Pairwise StrLowerLe l) :
    evictLoop q l = l.drop (l.length - q) ∧
    ∀ x ∈ l.take (l.length - q), ∀ y ∈ evictLoop q l, StrLowerLe x y := by
  refine ⟨evictLoop_eq_drop q l, ?_⟩
  intro x hx y hy
  rw [evictLoop_eq_drop q l] at hy
  have hp : List.Pairwise StrLowerLe
      (l.take (l.length - q) ++ l.drop (l.length - q)) := by
    rw [List.take_append_drop]
    exact hs
  exact (List.pairwise_append.mp hp).2.2 x hx y hy

/-- C4 witness: the claim's concrete instance — daily quota 2 on the
sorted members `2024-01-01_00`, `2024-01-02_00`, `2024-01-03_00` leaves
exactly the two largest. -/
theorem claim_c4_quota_eviction_witness :
    List.Pairwise StrLowerLe ["2024-01-01_00", "2024-01-02_00", "2024-01-03_00"] ∧
    evictLoop 2 ["2024-01-01_00", "2024-01-02_00", "2024-01-03_00"] =
      ["2024-01-02_00", "2024-01-03_00"] := by
  have hp : List.Pairwise StrLowerLe
      ["2024-01-01_00", "2024-01-02_00", "2024-01-03_00"] := by decide
  refine ⟨hp, ?_⟩
  rw [(claim_c4_quota_eviction 2 _ hp).1]
  rfl

/-- C5 (code evaluation): with a store operation that always raises the
transient error, `put_file` with `max_stor_attempts = 2` makes exactly 2
store calls and then RETURNS WITHOUT RAISING (the give-up check is the
hard-coded `try_nr >= 10`, not the configured bound), with the default 10
it makes 10 calls and raises, and with 11 it raises after only 10 calls —
so the claimed "exactly n calls then raise" holds only at n = 10. -/
theorem claim_c5_retry_code :
    put_file 2 (fun _ => true) = .returnedWithoutUpload 2 ∧
    put_file 10 (fun _ => true) = .raisedTemp 10 ∧
    put_file 11 (fun _ => true) = .raisedTemp 10 ∧
    put_file 10 (fun t => t < 3) = .ok 3 := by
  exact ⟨rfl, rfl, rfl, rfl⟩

/-- C6 (code evaluation): `FTPHandler.remove(recursive=True, item)` removes
nothing from a non-empty directory: for a directory containing one plain
file it issues `cwd`, the listing, `cwd ..` and a refused `rmd` and removes
no node; for a directory containing a subdirectory the inner recursion
raises `TypeError` and the walk stops after the listing; for a plain file
the `error_perm` fallback never fires because `cwd` wraps the error in
`FTPCwdError`. Only an already-empty directory is removed. -/
theorem claim_c6_remove_code :
    ftp_handler_remove_rec [FsNode.dirNode "d" [FsNode.fileNode "f"]] "d" =
      ([.opCwd "d", .opList, .opCwdUp, .opRmd "d"], []) ∧
    ftp_handler_remove_rec [FsNode.dirNode "d" [FsNode.dirNode "s" []]] "d" =
      ([.opCwd "d", .opList], []) ∧
    ftp_handler_remove_rec [FsNode.fileNode "g"] "g" = ([], []) ∧
    ftp_handler_remove_rec [FsNode.dirNode "d" []] "d" =
      ([.opCwd "d", .opList, .opCwdUp, .opRmd "d"], ["d"]) := by
  exact ⟨rfl, rfl, rfl, rfl⟩

/-- C7 (code evaluation): `EntryPermissions.to_int` parses `"drwxr-xr-x"`
to `0` (each `perm | STAT_XXXX` discards its result), so the stored
permission is `0`, its octal form is `"0o0000"` and its symbolic rendering
is `"----------"`, not the original string; with the evidently intended
or-accumulation the round trip does hold. -/
theorem claim_c7_roundtrip_code :
    to_int "drwxr-xr-x" = some 0 ∧
    set_permission (.strVal "drwxr-xr-x") = some 0 ∧
    perm_oct 0 = "0o0000" ∧
    perm_str 0 = "----------" ∧
    perm_str 0 ≠ "drwxr-xr-x" ∧
    to_int_intended "drwxr-xr-x" = some 0o1557 ∧
    (0o1557 : Nat) &&& 0o1777 = 0o1557 ∧
    perm_str 0o1557 = "drwxr-xr-x" := by
  decide

/-- C8 (code evaluation): `FTPHandler.mkdir` on a logged-in session with
simulate off raises `NameError` (it passes the undefined name
`new_backup_dir` to `mkd`) instead of creating the directory; under
simulate it performs no call; not logged in it raises the state error.
`SFTPHandler.mkdir` issues the mutating `mkdir` even under simulate (the
method never checks the flag), and its not-connected path raises
`NameError` (undefined `rpath`) instead of the state error. -/
theorem claim_c8_mkdir_code :
    ftp_mkdir true false "backup" = .nameError ∧
    ftp_mkdir true true "backup" = .noMutatingCall ∧
    ftp_mkdir false false "backup" = .stateError ∧
    ftp_mkdir false true "backup" = .stateError ∧
    sftp_mkdir true true "backup" = .mkdirCall "backup" ∧
    sftp_mkdir true false "backup" = .mkdirCall "backup" ∧
    sftp_mkdir false false "backup" = .nameError := by
  decide

/-- C9: with simulate enabled, a full FTP-application run issues no
mutating remote call at all (no delete, rmdir, mkdir or STOR; the
SFTP-side recursive removal is likewise mutation-free under simulate),
while the computed delete set, upload file list and new directory name are
identical to those of the non-simulated run on the same inputs. -/
theorem claim_c9_simulate (remote : List FsNode) (localFiles : List LocalEntry)
    (today : Date) (c : Copies) :
    ((backup_run true remote localFiles today c).ops.filter isMutatingOp = []) ∧
    (backup_run true remote localFiles today c).deleteSet =
      (backup_run false remote localFiles today c).deleteSet ∧
    (backup_run true remote localFiles today c).uploads =
      (backup_run false remote localFiles today c).uploads ∧
    (backup_run true remote localFiles today c).newDir =
      (backup_run false remote localFiles today c).newDir ∧
    (∀ t : FsNode, (sftp_remove_node true t).filter isMutatingOp = []) := by
  refine ⟨?_, rfl, rfl, rfl, sftp_remove_node_sim_pure⟩
  have h := remove_items_sim_pure remote
    (cleanup_old_backupdirs (remote.map nodeName) today c).deleteSet
  simp only [backup_run, if_pos, List.append_nil, List.filter_append, h]

/-- C10: every permission value stored by `_set_permission` has been masked
with `0o1777` and hence lies in `0 … 0o1777`; a negative integer or an
unrecognized value raises `ValueError` and stores nothing. -/
theorem claim_c10_mask :
    (∀ (inp : PermInput) (p : Nat), set_permission inp = some p → p ≤ 0o1777) ∧
    (∀ n : Int, n < 0 → set_permission (.intVal n) = none) ∧
    (∀ s : String, to_int s = none → set_permission (.strVal s) = none) ∧
    set_permission .otherVal = none := by
  refine ⟨?_, ?_, ?_, rfl⟩
  · intro inp p hp
    cases inp with
    | intVal n =>
      by_cases hneg : n < 0
      · simp [set_permission, hneg] at hp
      · simp only [set_permission, if_neg hneg, Option.some.injEq] at hp
        rw [← hp]
        exact Nat.and_le_right
    | strVal s =>
      cases h : to_int s with
      | none => simp [set_permission, h] at hp
      | some v =>
        simp only [set_permission, h, Option.some.injEq] at hp
        rw [← hp]
        exact Nat.and_le_right
    | otherVal => simp [set_permission] at hp
  · intro n hn
    simp [set_permission, hn]
  · intro s hs
    simp [set_permission, hs]

/-- C10 witness: storing the integer `0o2777` masks it down to `0o777`,
which is within the invariant range. -/
theorem claim_c10_mask_witness :
    set_permission (.intVal 1535) = some 511 ∧ 511 ≤ 0o1777 := by
  have h : set_permission (.intVal 1535) = some 511 := by decide
  exact ⟨h, claim_c10_mask.1 (.intVal 1535) 511 h⟩

end FtpBackup
